import Mathlib

/-!
Verification development for the `azalea_applet` plugin transport and runtime.

The Rust sources embedded here are `src/connection.rs` (framed connection over a
Unix stream), `src/runtime.rs` (the host-side plugin registry) and the message
unions of `src/lib.rs`, together with the serializable widget data model of
`src/widgets/`. Messages travel as bincode (standard configuration) payloads
behind a 4-byte little-endian length prefix.

Bytes are modelled as natural numbers (values below 256 wherever they originate
from an encoder); the asynchronous byte stream is modelled as the list of chunks
that successive socket reads deliver, with the empty chunk list standing for a
peer that has closed its end.
-/

namespace Azalea

/-! ## Little-endian byte encodings (bincode standard configuration) -/

/-- `k` little-endian bytes of `n`, as produced by `u32::to_le_bytes` and
friends; values of `n` at or above `2 ^ (8 * k)` are truncated exactly as the
Rust integer cast truncates. -/
def encLE : Nat → Nat → List Nat
  | 0, _ => []
  | k + 1, n => n % 256 :: encLE k (n / 256)

/-- Little-endian value of a byte list, as computed by `bytes::Buf::get_u32_le`
on the four-byte size buffer in `Connection::parse_frame`. -/
def leVal : List Nat → Nat
  | [] => 0
  | b :: bs => b % 256 + 256 * leVal bs

theorem encLE_length (k n : Nat) : (encLE k n).length = k := by
  induction k generalizing n with
  | zero => rfl
  | succ k ih => simp [encLE, ih]

theorem leVal_encLE (k n : Nat) : leVal (encLE k n) = n % 256 ^ k := by
  induction k generalizing n with
  | zero => simp [encLE, leVal, Nat.mod_one]
  | succ k ih =>
      simp only [encLE, leVal, ih]
      rw [pow_succ, mul_comm (256 ^ k) 256, Nat.mod_mul]
      omega

/-- bincode's standard varint encoding of an unsigned integer, used for every
integer field, collection length and enum discriminant of the wire format. -/
def encVarint (n : Nat) : List Nat :=
  if n < 251 then [n]
  else if n < 2 ^ 16 then 251 :: encLE 2 n
  else if n < 2 ^ 32 then 252 :: encLE 4 n
  else 253 :: encLE 8 n

/-- bincode's varint decoder for an unsigned integer of `wbits` bits
(`32` for enum discriminants, `64` for lengths): a leading byte below `251`
is the value itself, and the markers `251`/`252`/`253` announce a two-, four-
or eight-byte little-endian value; markers wider than the target width and
decoded values outside it are rejected. -/
def decVarint (wbits : Nat) : List Nat → Except String (Nat × List Nat)
  | [] => .error "UnexpectedEnd"
  | b :: bs =>
    if b < 251 then .ok (b, bs)
    else if b = 251 then
      match bs with
      | b0 :: b1 :: rest =>
          if 16 ≤ wbits then .ok (leVal [b0, b1], rest) else .error "InvalidIntegerType"
      | _ => .error "UnexpectedEnd"
    else if b = 252 then
      match bs with
      | b0 :: b1 :: b2 :: b3 :: rest =>
          if 32 ≤ wbits then .ok (leVal [b0, b1, b2, b3], rest)
          else .error "InvalidIntegerType"
      | _ => .error "UnexpectedEnd"
    else if b = 253 then
      match bs with
      | b0 :: b1 :: b2 :: b3 :: b4 :: b5 :: b6 :: b7 :: rest =>
          if 64 ≤ wbits then .ok (leVal [b0, b1, b2, b3, b4, b5, b6, b7], rest)
          else .error "InvalidIntegerType"
      | _ => .error "UnexpectedEnd"
    else .error "InvalidIntegerType"

theorem encVarint_length_le (n : Nat) (h : n < 2 ^ 32) :
    (encVarint n).length ≤ 5 := by
  unfold encVarint
  split
  · simp
  · split
    · simp [encLE_length]
    · simp [encLE_length]

theorem decVarint_encVarint_small (wbits n : Nat) (h : n < 251) (rest : List Nat) :
    decVarint wbits (encVarint n ++ rest) = .ok (n, rest) := by
  simp [encVarint, decVarint, h]

theorem decVarint_encVarint_64 (n : Nat) (h : n < 2 ^ 64) (rest : List Nat) :
    decVarint 64 (encVarint n ++ rest) = .ok (n, rest) := by
  unfold encVarint
  by_cases h1 : n < 251
  · simp [h1, decVarint]
  · by_cases h2 : n < 2 ^ 16
    · have hv := leVal_encLE 2 n
      have e2 : encLE 2 n = [n % 256, n / 256 % 256] := by simp [encLE]
      rw [e2] at hv
      simp only [h1, h2, if_true, if_false, e2, List.cons_append, List.cons.injEq,
        List.nil_append, decVarint]
      norm_num
      rw [hv]; omega
    · by_cases h3 : n < 2 ^ 32
      · have hv := leVal_encLE 4 n
        have e4 : encLE 4 n =
            [n % 256, n / 256 % 256, n / 256 / 256 % 256, n / 256 / 256 / 256 % 256] := by
          simp [encLE]
        rw [e4] at hv
        simp only [h1, h2, h3, if_true, if_false, e4, List.cons_append, List.nil_append,
          decVarint]
        norm_num
        rw [hv]; omega
      · have hv := leVal_encLE 8 n
        have e8 : encLE 8 n =
            [n % 256, n / 256 % 256, n / 256 / 256 % 256, n / 256 / 256 / 256 % 256,
             n / 256 / 256 / 256 / 256 % 256, n / 256 / 256 / 256 / 256 / 256 % 256,
             n / 256 / 256 / 256 / 256 / 256 / 256 % 256,
             n / 256 / 256 / 256 / 256 / 256 / 256 / 256 % 256] := by
          simp [encLE]
        rw [e8] at hv
        simp only [h1, h2, h3, if_true, if_false, e8, List.cons_append, List.nil_append,
          decVarint]
        norm_num
        rw [hv]
        have : (256 : Nat) ^ 8 = 2 ^ 64 := by norm_num
        rw [this]
        omega

/-! ## Primitive serde codecs

`f32` fields are carried bit-for-bit: bincode writes the four little-endian
bytes of the bit pattern and reads them back unchanged, so an `f32` is modelled
as its 32-bit pattern. -/

/-- The bit pattern of an `f32`, as serialized by bincode (four bytes,
little-endian, no interpretation of the floating-point value). -/
abbrev F32 := Fin 4294967296

/-- bincode encoding of an `f32`: the four little-endian bytes of its bits. -/
def encF32 (x : F32) : List Nat := encLE 4 x.val

/-- bincode decoding of an `f32`: read four bytes and reassemble the bits. -/
def decF32 : List Nat → Except String (F32 × List Nat)
  | b0 :: b1 :: b2 :: b3 :: rest =>
      .ok (⟨b0 % 256 + 256 * (b1 % 256) + 65536 * (b2 % 256) + 16777216 * (b3 % 256),
            by omega⟩, rest)
  | _ => .error "UnexpectedEnd"

theorem decF32_encF32 (x : F32) (rest : List Nat) :
    decF32 (encF32 x ++ rest) = .ok (x, rest) := by
  have hx := x.isLt
  simp only [encF32, encLE, List.cons_append, List.nil_append, decF32, Except.ok.injEq,
    Prod.mk.injEq, and_true]
  exact Fin.ext (by simp only []; omega)

/-- bincode encoding of a `bool`: one byte, `0` or `1`. -/
def encBool (b : Bool) : List Nat := [if b then 1 else 0]

/-- bincode decoding of a `bool`: `0` is `false`, `1` is `true`, anything else
is rejected. -/
def decBool : List Nat → Except String (Bool × List Nat)
  | 0 :: rest => .ok (false, rest)
  | 1 :: rest => .ok (true, rest)
  | _ :: _ => .error "InvalidBooleanValue"
  | [] => .error "UnexpectedEnd"

theorem decBool_encBool (b : Bool) (rest : List Nat) :
    decBool (encBool b ++ rest) = .ok (b, rest) := by
  cases b <;> rfl

/-- bincode encoding of a `Vec<u8>` (also used for the UTF-8 bytes of a
`String`): the length as a `u64` varint followed by the raw bytes. -/
def encBytes (v : List Nat) : List Nat := encVarint v.length ++ v

/-- bincode decoding of a `Vec<u8>`: read the length varint, then that many
bytes. -/
def decBytes (bs : List Nat) : Except String (List Nat × List Nat) :=
  match decVarint 64 bs with
  | .error e => .error e
  | .ok (len, r) =>
      if len ≤ r.length then .ok (r.take len, r.drop len) else .error "UnexpectedEnd"

theorem decBytes_encBytes (v : List Nat) (h : v.length < 2 ^ 64) (rest : List Nat) :
    decBytes (encBytes v ++ rest) = .ok (v, rest) := by
  simp [encBytes, decBytes, decVarint_encVarint_64 v.length h, List.take_append,
    List.drop_append]

/-! ## The theme snapshot (`src/widgets/serde_types.rs`)

`Theme` is the palette snapshot pushed to a plugin at registration and on
theme changes; every colour component is an `f32` carried bit-for-bit. -/

/-- `iced::Color` through `ColorDef`: four `f32` components `r g b a`. -/
structure Color where
  r : F32
  g : F32
  b : F32
  a : F32
deriving DecidableEq, Repr

/-- `iced::theme::palette::Pair` through `PairDef`: a background colour and a
text colour. -/
structure Pair where
  color : Color
  text : Color
deriving DecidableEq, Repr

/-- The shared shape of `palette::Background`, `Primary`, `Secondary`,
`Success` and `Danger` (all serialized through `*Def` with fields
`base`/`weak`/`strong`, each a `Pair`). -/
structure PairTriple where
  base : Pair
  weak : Pair
  strong : Pair
deriving DecidableEq, Repr

/-- `iced::theme::Palette` through `PaletteDef`: five colours in declaration
order `background`, `text`, `primary`, `success`, `danger`. -/
structure Palette where
  background : Color
  text : Color
  primary : Color
  success : Color
  danger : Color
deriving DecidableEq, Repr

/-- `iced::theme::palette::Extended` through `ExtendedDef`: the five extended
pair sets followed by the `is_dark` flag. -/
structure Extended where
  background : PairTriple
  primary : PairTriple
  secondary : PairTriple
  success : PairTriple
  danger : PairTriple
  isDark : Bool
deriving DecidableEq, Repr

/-- `widgets::serde_types::Theme`: the palette snapshot sent in
`PluginEvent::Theme`. -/
structure Theme where
  palette : Palette
  extended : Extended
deriving DecidableEq, Repr

def encColor (c : Color) : List Nat :=
  encF32 c.r ++ encF32 c.g ++ encF32 c.b ++ encF32 c.a

def decColor (bs : List Nat) : Except String (Color × List Nat) := do
  let (r, bs) ← decF32 bs
  let (g, bs) ← decF32 bs
  let (b, bs) ← decF32 bs
  let (a, bs) ← decF32 bs
  .ok (⟨r, g, b, a⟩, bs)

theorem decColor_encColor (c : Color) (rest : List Nat) :
    decColor (encColor c ++ rest) = .ok (c, rest) := by
  simp [encColor, decColor, List.append_assoc, decF32_encF32, Bind.bind, Except.bind]

def encPair (p : Pair) : List Nat := encColor p.color ++ encColor p.text

def decPair (bs : List Nat) : Except String (Pair × List Nat) := do
  let (c, bs) ← decColor bs
  let (t, bs) ← decColor bs
  .ok (⟨c, t⟩, bs)

theorem decPair_encPair (p : Pair) (rest : List Nat) :
    decPair (encPair p ++ rest) = .ok (p, rest) := by
  simp [encPair, decPair, List.append_assoc, decColor_encColor, Bind.bind, Except.bind]

def encPairTriple (t : PairTriple) : List Nat :=
  encPair t.base ++ encPair t.weak ++ encPair t.strong

def decPairTriple (bs : List Nat) : Except String (PairTriple × List Nat) := do
  let (b, bs) ← decPair bs
  let (w, bs) ← decPair bs
  let (s, bs) ← decPair bs
  .ok (⟨b, w, s⟩, bs)

theorem decPairTriple_encPairTriple (t : PairTriple) (rest : List Nat) :
    decPairTriple (encPairTriple t ++ rest) = .ok (t, rest) := by
  simp [encPairTriple, decPairTriple, List.append_assoc, decPair_encPair, Bind.bind, Except.bind]

def encPalette (p : Palette) : List Nat :=
  encColor p.background ++ encColor p.text ++ encColor p.primary ++
    encColor p.success ++ encColor p.danger

def decPalette (bs : List Nat) : Except String (Palette × List Nat) := do
  let (bg, bs) ← decColor bs
  let (tx, bs) ← decColor bs
  let (pr, bs) ← decColor bs
  let (su, bs) ← decColor bs
  let (da, bs) ← decColor bs
  .ok (⟨bg, tx, pr, su, da⟩, bs)

theorem decPalette_encPalette (p : Palette) (rest : List Nat) :
    decPalette (encPalette p ++ rest) = .ok (p, rest) := by
  simp [encPalette, decPalette, List.append_assoc, decColor_encColor, Bind.bind, Except.bind]

def encExtended (e : Extended) : List Nat :=
  encPairTriple e.background ++ encPairTriple e.primary ++ encPairTriple e.secondary ++
    encPairTriple e.success ++ encPairTriple e.danger ++ encBool e.isDark

def decExtended (bs : List Nat) : Except String (Extended × List Nat) := do
  let (bg, bs) ← decPairTriple bs
  let (pr, bs) ← decPairTriple bs
  let (se, bs) ← decPairTriple bs
  let (su, bs) ← decPairTriple bs
  let (da, bs) ← decPairTriple bs
  let (d, bs) ← decBool bs
  .ok (⟨bg, pr, se, su, da, d⟩, bs)

theorem decExtended_encExtended (e : Extended) (rest : List Nat) :
    decExtended (encExtended e ++ rest) = .ok (e, rest) := by
  simp [encExtended, decExtended, List.append_assoc, decPairTriple_encPairTriple,
    decBool_encBool, Bind.bind, Except.bind]

def encTheme (t : Theme) : List Nat := encPalette t.palette ++ encExtended t.extended

def decTheme (bs : List Nat) : Except String (Theme × List Nat) := do
  let (p, bs) ← decPalette bs
  let (e, bs) ← decExtended bs
  .ok (⟨p, e⟩, bs)

theorem decTheme_encTheme (t : Theme) (rest : List Nat) :
    decTheme (encTheme t ++ rest) = .ok (t, rest) := by
  simp [encTheme, decTheme, List.append_assoc, decPalette_encPalette,
    decExtended_encExtended, Bind.bind, Except.bind]

theorem encColor_length (c : Color) : (encColor c).length = 16 := by
  simp [encColor, encF32, encLE_length]

theorem encTheme_length (t : Theme) : (encTheme t).length = 561 := by
  simp [encTheme, encPalette, encExtended, encPairTriple, encPair, encBool,
    encColor_length]

/-! ## The widget data model (`src/widgets/`)

`Element` wraps a `Box<dyn Widget>` trait object (`#[typetag::serde(tag =
"type")]`), and the six `Widget` implementations are `Button`, `Column`,
`Container`, `Space`, `Stack` and `Text`. Rust `String`s are modelled as their
UTF-8 byte lists. -/

/-- The UTF-8 bytes of a Rust `String`. -/
abbrev Str := List Nat

/-- `iced::Length` through `LengthDef` (variants in declaration order). -/
inductive Length where
  | fill
  | fillPortion (factor : Fin 65536)
  | shrink
  | fixed (amount : F32)
deriving DecidableEq, Repr

/-- `iced::Padding` through `PaddingDef`. -/
structure Padding where
  top : F32
  right : F32
  bottom : F32
  left : F32
deriving DecidableEq, Repr

/-- `iced::alignment::Horizontal` through `HorizontalDef`. -/
inductive Horizontal where
  | left
  | center
  | right
deriving DecidableEq, Repr

/-- `iced::alignment::Vertical` through `VerticalDef`. -/
inductive Vertical where
  | top
  | center
  | bottom
deriving DecidableEq, Repr

/-- `iced::Alignment` through `AlignmentDef` (`Start`, `Center`, `End`). -/
inductive Alignment where
  | start
  | center
  | end'
deriving DecidableEq, Repr

/-- `iced::widget::text::LineHeight` through `LineHeightDef`; the `Absolute`
payload is a `Pixels` newtype around an `f32`. -/
inductive LineHeight where
  | relative (factor : F32)
  | absolute (pixels : F32)
deriving DecidableEq, Repr

/-- `iced::widget::text::Shaping` through `ShapingDef`. -/
inductive Shaping where
  | basic
  | advanced
deriving DecidableEq, Repr

/-- `iced::widget::text::Wrapping` through `WrappingDef`. -/
inductive Wrapping where
  | none
  | word
  | glyph
  | wordOrGlyph
deriving DecidableEq, Repr

/-- `widgets::serde_types::Family`. -/
inductive Family where
  | name (s : Str)
  | serif
  | sansSerif
  | cursive
  | fantasy
  | monospace
deriving DecidableEq, Repr

/-- `iced::font::Weight` through `WeightDef`. -/
inductive FontWeight where
  | thin
  | extraLight
  | light
  | normal
  | medium
  | semibold
  | bold
  | extraBold
  | black
deriving DecidableEq, Repr

/-- `iced::font::Stretch` through `StretchDef`. -/
inductive FontStretch where
  | ultraCondensed
  | extraCondensed
  | condensed
  | semiCondensed
  | normal
  | semiExpanded
  | expanded
  | extraExpanded
  | ultraExpanded
deriving DecidableEq, Repr

/-- `iced::font::Style` through `StyleDef`. -/
inductive FontStyle where
  | normal
  | italic
  | oblique
deriving DecidableEq, Repr

/-- `widgets::serde_types::Font`. -/
structure Font where
  family : Family
  weight : FontWeight
  stretch : FontStretch
  style : FontStyle
deriving DecidableEq, Repr

/-- `widgets::serde_types::Id` (container identifier). -/
inductive WidgetId where
  | unique
  | custom (s : Str)
deriving DecidableEq, Repr

/-- `iced::border::Radius` through `RadiusDef`. -/
structure Radius where
  topLeft : F32
  topRight : F32
  bottomRight : F32
  bottomLeft : F32
deriving DecidableEq, Repr

/-- `iced::Border` through `BorderDef`. -/
structure Border where
  color : Color
  width : F32
  radius : Radius
deriving DecidableEq, Repr

/-- `iced::Vector` through `VectorDef`. -/
structure Vector where
  x : F32
  y : F32
deriving DecidableEq, Repr

/-- `iced::Shadow` through `ShadowDef`. -/
structure Shadow where
  color : Color
  offset : Vector
  blurRadius : F32
deriving DecidableEq, Repr

/-- `iced::gradient::ColorStop` through `ColorStopDef`. -/
structure ColorStop where
  offset : F32
  color : Color
deriving DecidableEq, Repr

/-- `iced::gradient::Linear` through `LinearDef`; the eight optional stops are
serialized as a sequence by `slice_opt_color_stop`. -/
structure LinearGradient where
  angle : F32
  stops : List (Option ColorStop)
deriving DecidableEq, Repr

/-- `iced::Gradient` through `GradientDef`. -/
inductive Gradient where
  | linear (l : LinearGradient)
deriving DecidableEq, Repr

/-- `iced::Background` through `BackgroundDef`. -/
inductive Background where
  | color (c : Color)
  | gradient (g : Gradient)
deriving DecidableEq, Repr

/-- `widgets::text::Style` (optional text colour). -/
structure TextStyle where
  color : Option Color
deriving DecidableEq, Repr

/-- `widgets::button::Style`. -/
structure ButtonStyle where
  background : Option Background
  textColor : Color
  border : Border
  shadow : Shadow
deriving DecidableEq, Repr

/-- `widgets::button::StateStyle` (one `Style` per button status). -/
structure ButtonStateStyle where
  active : ButtonStyle
  hovered : ButtonStyle
  pressed : ButtonStyle
  disabled : ButtonStyle
deriving DecidableEq, Repr

/-- `widgets::container::Style`. -/
structure ContainerStyle where
  textColor : Option Color
  background : Option Background
  border : Border
  shadow : Shadow
deriving DecidableEq, Repr

mutual

/-- `widgets::element::Element`: a struct holding the boxed `dyn Widget`
trait object. -/
inductive Element where
  | mk (widget : Widget)

/-- The closed set of `#[typetag::serde]` implementations of `Widget`, with
their serde fields in declaration order (`cls` stands for the Rust field
`class`, which is not a legal Lean identifier). -/
inductive Widget where
  | button (content : Element) (onPress : Option (List Nat)) (width height : Length)
      (padding : Padding) (clip : Bool) (cls : Option ButtonStateStyle)
  | column (spacing : F32) (padding : Padding) (width height : Length) (maxWidth : F32)
      (align : Alignment) (clip : Bool) (children : List Element)
  | container (maxWidth maxHeight : F32) (id : Option WidgetId) (padding : Padding)
      (width height : Length) (horizontalAlignment : Horizontal)
      (verticalAlignment : Vertical) (clip : Bool) (content : Element)
      (cls : Option ContainerStyle)
  | space (width height : Length)
  | stack (width height : Length) (children : List Element)
  | text (fragment : Str) (size : Option F32) (lineHeight : LineHeight)
      (width height : Length) (horizontalAlignment : Horizontal)
      (verticalAlignment : Vertical) (font : Option Font) (shaping : Shaping)
      (wrapping : Wrapping) (cls : Option TextStyle)

end

/-! ## The message unions (`src/lib.rs`) and their bincode codecs

`PluginEvent` (host → plugin) and `PluginRequest` (plugin → host) are encoded
by `bincode::serde` with the standard configuration: the variant index as a
`u32` varint followed by the payload fields.

Encoding or decoding an `Element` is modelled from the behaviour of the
`bincode` and `typetag` dependencies (code outside this repository):
`Element`'s derived `Serialize` delegates to the `#[typetag::serde(tag =
"type")]` trait object, whose internally tagged representation is a map of
unknown length (`serialize_map(None)` plus the tag entry); bincode's serde
serializer rejects length-unknown sequences (`SequenceMustHaveLength`), and its
deserializer rejects the `deserialize_any` that internally tagged
deserialization requires (bincode is not self-describing). Either direction
therefore fails unconditionally for any `Element` value. -/

/-- Errors of `bincode::serde::encode_to_vec` that the embedded code can hit. -/
inductive EncodeErr where
  | sequenceMustHaveLength
deriving DecidableEq, Repr

/-- `PluginEvent` (host → plugin): `Update`, `Message(Vec<u8>)`,
`Theme(Theme)`. -/
inductive PluginEvent where
  | update
  | message (bytes : List Nat)
  | theme (t : Theme)
deriving DecidableEq, Repr

/-- `PluginRequest` (plugin → host): `View(Arc<Element>)`,
`Message(Vec<u8>)`. -/
inductive PluginRequest where
  | view (e : Element)
  | message (bytes : List Nat)

/-- Modelled from the `bincode`/`typetag` dependencies (see the section
comment): serializing the `Box<dyn Widget>` inside an `Element` fails with
`SequenceMustHaveLength` because the internally tagged trait object is a
length-unknown map. -/
def encodeElement (_ : Element) : Except EncodeErr (List Nat) :=
  .error .sequenceMustHaveLength

/-- Modelled from the `bincode`/`typetag` dependencies (see the section
comment): deserializing the `Box<dyn Widget>` inside an `Element` fails because
internally tagged deserialization calls `deserialize_any`, which bincode does
not support. -/
def decodeElement (_ : List Nat) : Except String (Element × List Nat) :=
  .error "DeserializeAnyNotSupported"

/-- bincode encoding of a `PluginEvent` (total: no variant contains an
`Element`). -/
def encodePluginEvent : PluginEvent → List Nat
  | .update => encVarint 0
  | .message v => encVarint 1 ++ encBytes v
  | .theme t => encVarint 2 ++ encTheme t

/-- bincode decoding of a `PluginEvent`. -/
def decodePluginEvent (bs : List Nat) : Except String (PluginEvent × List Nat) :=
  match decVarint 32 bs with
  | .error e => .error e
  | .ok (0, r) => .ok (.update, r)
  | .ok (1, r) =>
      match decBytes r with
      | .error e => .error e
      | .ok (v, r') => .ok (.message v, r')
  | .ok (2, r) =>
      match decTheme r with
      | .error e => .error e
      | .ok (t, r') => .ok (.theme t, r')
  | .ok (_, _) => .error "AllowedEnumVariantsNotFound"

/-- bincode encoding of a `PluginRequest`; the `View` variant fails because its
`Element` payload cannot be serialized (see `encodeElement`). -/
def encodePluginRequest : PluginRequest → Except EncodeErr (List Nat)
  | .view e => (encodeElement e).map (fun p => encVarint 0 ++ p)
  | .message v => .ok (encVarint 1 ++ encBytes v)

/-- bincode decoding of a `PluginRequest`; the `View` variant fails because its
`Element` payload cannot be deserialized (see `decodeElement`). -/
def decodePluginRequest (bs : List Nat) : Except String (PluginRequest × List Nat) :=
  match decVarint 32 bs with
  | .error e => .error e
  | .ok (0, r) =>
      match decodeElement r with
      | .error e => .error e
      | .ok (e, r') => .ok (.view e, r')
  | .ok (1, r) =>
      match decBytes r with
      | .error e => .error e
      | .ok (v, r') => .ok (.message v, r')
  | .ok (_, _) => .error "AllowedEnumVariantsNotFound"

/-- `PluginEvent` encoding never fails (wrapped in `Except` to share the
`write_frame` model with `PluginRequest`). -/
def encodePluginEventE (m : PluginEvent) : Except EncodeErr (List Nat) :=
  .ok (encodePluginEvent m)

theorem decodePluginEvent_enc (m : PluginEvent)
    (h : ∀ v, m = .message v → v.length < 2 ^ 64) (rest : List Nat) :
    ∃ r, decodePluginEvent (encodePluginEvent m ++ rest) = .ok (m, r) := by
  cases m with
  | update =>
      exact ⟨rest, by simp [encodePluginEvent, decodePluginEvent,
        decVarint_encVarint_small 32 0 (by norm_num)]⟩
  | message v =>
      refine ⟨rest, ?_⟩
      simp only [encodePluginEvent, List.append_assoc]
      rw [decodePluginEvent, decVarint_encVarint_small 32 1 (by norm_num)]
      simp [decBytes_encBytes v (h v rfl)]
  | theme t =>
      refine ⟨rest, ?_⟩
      simp only [encodePluginEvent, List.append_assoc]
      rw [decodePluginEvent, decVarint_encVarint_small 32 2 (by norm_num)]
      simp [decTheme_encTheme]

/-! ## The framed connection (`src/connection.rs`, `Connection`)

The Unix stream is modelled as the list of byte chunks that successive socket
reads deliver (each chunk is one successful `read` worth of bytes); an
exhausted chunk list means the peer has closed its end, so reads return zero
bytes. Following tokio's semantics:

* `read_exact` (used for the 4-byte size buffer) keeps reading until the
  buffer is full, and fails with `UnexpectedEof` if the stream ends first;
* `read` with a 1-byte buffer (used for the probe sentinel) returns at most
  one byte, zero at end of stream;
* `read_buf` (used for the payload and by the `read_frame` loop) appends the
  next available chunk to the `BytesMut` accumulation buffer and returns its
  length, zero at end of stream. The `BytesMut` starts with 4096 bytes of
  capacity and `parse_frame` reserves `size + 4` more before reading, so for
  the streams considered here the spare capacity never truncates a read.

Empty chunks cannot arise from a socket (a zero-byte read means end of
stream), so the primitives skip them. -/

/-- State of a `Connection`: the pending stream chunks and the `BytesMut`
accumulation buffer. -/
structure ConnState where
  chunks : List (List Nat)
  buffer : List Nat
deriving DecidableEq, Repr

/-- Termination measure for the `read_frame` loop: total pending bytes plus
the number of pending chunks. -/
def chunksMeasure (cs : List (List Nat)) : Nat := (cs.map List.length).sum + cs.length

/-- One `read` with a one-byte buffer: the next pending byte, or `none` at end
of stream. -/
def read1 : List (List Nat) → Option Nat × List (List Nat)
  | [] => (none, [])
  | [] :: cs => read1 cs
  | (b :: c) :: cs => (some b, if c.isEmpty then cs else c :: cs)

/-- `read_exact` into an `n`-byte buffer: `none` if the stream ends before `n`
bytes arrive (the partially read bytes are still consumed). -/
def readExact : Nat → List (List Nat) → Option (List Nat) × List (List Nat)
  | 0, cs => (some [], cs)
  | n + 1, cs =>
    match read1 cs with
    | (none, cs') => (none, cs')
    | (some b, cs') =>
      match readExact n cs' with
      | (some bs, cs'') => (some (b :: bs), cs'')
      | (none, cs'') => (none, cs'')

/-- One `read_buf`: the next pending chunk (empty at end of stream). -/
def readChunk : List (List Nat) → List Nat × List (List Nat)
  | [] => ([], [])
  | [] :: cs => readChunk cs
  | (b :: c) :: cs => (b :: c, cs)

theorem read1_measure (cs : List (List Nat)) :
    chunksMeasure (read1 cs).2 ≤ chunksMeasure cs := by
  induction cs with
  | nil => simp [read1]
  | cons c cs ih =>
    cases c with
    | nil =>
        simp only [read1]
        calc chunksMeasure (read1 cs).2 ≤ chunksMeasure cs := ih
          _ ≤ chunksMeasure ([] :: cs) := by simp [chunksMeasure]
    | cons b c =>
        cases c with
        | nil => simp [read1, chunksMeasure]; omega
        | cons b' c' => simp [read1, chunksMeasure]

theorem readExact_measure (n : Nat) (cs : List (List Nat)) :
    chunksMeasure (readExact n cs).2 ≤ chunksMeasure cs := by
  induction n generalizing cs with
  | zero => simp [readExact]
  | succ n ih =>
      simp only [readExact]
      have h1 := read1_measure cs
      cases hr : read1 cs with
      | mk ob cs' =>
        cases ob with
        | none => simpa [hr] using (by rw [hr] at h1; exact h1)
        | some b =>
            have h2 := ih cs'
            rw [hr] at h1
            cases hx : readExact n cs' with
            | mk obs cs'' =>
              cases obs with
              | none => simp only [hx]; rw [hx] at h2; exact le_trans h2 h1
              | some bs => simp only [hx]; rw [hx] at h2; exact le_trans h2 h1

theorem readChunk_measure (cs : List (List Nat)) :
    chunksMeasure (readChunk cs).2 ≤ chunksMeasure cs := by
  induction cs with
  | nil => simp [readChunk]
  | cons c cs ih =>
    cases c with
    | nil =>
        simp only [readChunk]
        calc chunksMeasure (readChunk cs).2 ≤ chunksMeasure cs := ih
          _ ≤ chunksMeasure ([] :: cs) := by simp [chunksMeasure]
    | cons b c => simp [readChunk, chunksMeasure]; omega

theorem readChunk_measure_lt (cs cs' : List (List Nat)) (b : Nat) (c : List Nat)
    (h : readChunk cs = (b :: c, cs')) : chunksMeasure cs' < chunksMeasure cs := by
  induction cs with
  | nil => simp [readChunk] at h
  | cons d cs ih =>
    cases d with
    | nil =>
        simp only [readChunk] at h
        have := ih h
        simp only [chunksMeasure] at *
        simp at *
        omega
    | cons e d =>
        simp only [readChunk] at h
        obtain ⟨h1, h2⟩ := Prod.mk.injEq .. ▸ h
        subst h2
        simp [chunksMeasure]
        omega

/-- Errors `Connection::parse_frame` can produce (`read_exact` hitting end of
stream, the declared-size check, or a bincode decode failure). -/
inductive ParseErr where
  | unexpectedEof
  | sizeMismatch
  | decodeFail (msg : String)
deriving DecidableEq, Repr

/-- The only failure `Connection::read_frame` itself produces in this model:
`"connection reset by peer"`. -/
inductive ReadErr where
  | connectionReset
deriving DecidableEq, Repr

/-- The payload half of `Connection::parse_frame` (lines 129–142): reserve
capacity (immaterial here), perform one `read_buf` into the accumulation
buffer, fail with the size-mismatch error when the declared size differs from
the bytes that single read returned (compared as `u32`, hence the `% 2 ^ 32`
for the `num_bytes as u32` cast), otherwise bincode-decode from the front of
the whole buffer and advance it by `num_bytes`. -/
def parsePayload (dec : List Nat → Except String (α × List Nat)) (size : Nat)
    (cs : List (List Nat)) (buffer : List Nat) :
    Except ParseErr (Option α) × ConnState :=
  let (c, cs') := readChunk cs
  let numBytes := c.length
  let buf' := buffer ++ c
  if size ≠ numBytes % 2 ^ 32 then (.error .sizeMismatch, ⟨cs', buf'⟩)
  else
    match dec buf' with
    | .error e => (.error (.decodeFail e), ⟨cs', buf'⟩)
    | .ok (v, _) => (.ok (some v), ⟨cs', buf'.drop numBytes⟩)

/-- `Connection::parse_frame`: `read_exact` the four size bytes straight from
the stream, handle the zero-size sentinel (a sentinel byte of `0` — or end of
stream, which leaves the pre-zeroed one-byte buffer untouched — is a liveness
probe and yields "no message"; any other sentinel falls through to the payload
read), then read and decode the payload. -/
def parseFrame (dec : List Nat → Except String (α × List Nat)) (s : ConnState) :
    Except ParseErr (Option α) × ConnState :=
  match readExact 4 s.chunks with
  | (none, cs) => (.error .unexpectedEof, ⟨cs, s.buffer⟩)
  | (some sizeBuf, cs) =>
    let size := leVal sizeBuf
    if size = 0 then
      match read1 cs with
      | (ob, cs₂) =>
        if ob.getD 0 = 0 then (.ok none, ⟨cs₂, s.buffer⟩)
        else parsePayload dec size cs₂ s.buffer
    else parsePayload dec size cs s.buffer

theorem parsePayload_measure (dec : List Nat → Except String (α × List Nat))
    (size : Nat) (cs : List (List Nat)) (buffer : List Nat) :
    chunksMeasure (parsePayload dec size cs buffer).2.chunks ≤ chunksMeasure cs := by
  have h := readChunk_measure cs
  simp only [parsePayload]
  cases hr : readChunk cs with
  | mk c cs' =>
    rw [hr] at h
    split
    · exact h
    · cases hd : dec (buffer ++ c) with
      | error e => exact h
      | ok p => cases p with | mk v r => simp only []; exact h

theorem parseFrame_measure (dec : List Nat → Except String (α × List Nat))
    (s : ConnState) :
    chunksMeasure (parseFrame dec s).2.chunks ≤ chunksMeasure s.chunks := by
  simp only [parseFrame]
  have h4 := readExact_measure 4 s.chunks
  cases hr : readExact 4 s.chunks with
  | mk ob cs =>
    rw [hr] at h4
    cases ob with
    | none => exact h4
    | some sizeBuf =>
        simp only []
        split
        · have h1 := read1_measure cs
          cases h1r : read1 cs with
          | mk ob₂ cs₂ =>
            rw [h1r] at h1
            split
            · exact le_trans h1 h4
            · exact le_trans (le_trans (parsePayload_measure dec _ cs₂ s.buffer) h1) h4
        · exact le_trans (parsePayload_measure dec _ cs s.buffer) h4

/-- `Connection::read_frame`: try `parse_frame`; on success return its result,
on any parse error silently fall back to one `read_buf` into the accumulation
buffer — returning "no message" at end of stream with an empty buffer,
`"connection reset by peer"` at end of stream with buffered bytes — and loop. -/
def readFrame (dec : List Nat → Except String (α × List Nat)) (s : ConnState) :
    Except ReadErr (Option α) × ConnState :=
  match hp : parseFrame dec s with
  | (.ok f, s₁) => (.ok f, s₁)
  | (.error _, s₁) =>
    match hc : readChunk s₁.chunks with
    | ([], cs') =>
        if s₁.buffer = [] then (.ok none, ⟨cs', s₁.buffer⟩)
        else (.error .connectionReset, ⟨cs', s₁.buffer⟩)
    | (b :: c, cs') => readFrame dec ⟨cs', s₁.buffer ++ (b :: c)⟩
termination_by chunksMeasure s.chunks
decreasing_by
  have hm : chunksMeasure s₁.chunks ≤ chunksMeasure s.chunks := by
    have := parseFrame_measure dec s
    rw [hp] at this
    exact this
  exact lt_of_lt_of_le (readChunk_measure_lt s₁.chunks cs' b c hc) hm

/-- `Connection::write_frame`: bincode-encode the message, prepend the payload
length as the four little-endian bytes of `src.len() as u32` (a truncating
cast), write the whole buffer and flush; the returned list is exactly the byte
sequence put on the stream. -/
def writeFrameBytes (enc : α → Except EncodeErr (List Nat)) (m : α) :
    Except EncodeErr (List Nat) :=
  (enc m).map (fun src => encLE 4 src.length ++ src)

/-- Drive `read_frame` a fixed number of times, collecting the real messages
it reports (calls that yield "no message" or an error contribute nothing);
this models a caller polling the connection repeatedly. -/
def readN (dec : List Nat → Except String (α × List Nat)) :
    Nat → ConnState → List α × ConnState
  | 0, s => ([], s)
  | n + 1, s =>
    match readFrame dec s with
    | (.ok (some m), s') =>
        let (ms, s'') := readN dec n s'
        (m :: ms, s'')
    | (_, s') => readN dec n s'

/-! ## The plugin registry (`src/runtime.rs`, `PluginRuntime`)

A `Plugin` owns an unbounded sender for its outbound channel; the channel is
modelled by recording, on the plugin itself, the list of events pushed through
its sender (oldest first), since the receiving half is owned exclusively by
that plugin's exchange loop. `tokio::sync::mpsc` sends onto an unbounded
channel succeed as long as the receiver lives; receiver shutdown is a
concurrency aspect outside this state model, so sends here always succeed.

The host-side `iced::Theme` handed to `handle_plugin_message` enters the model
already converted to its serializable snapshot (`theme.into()` in the source,
the excluded UI layer's conversion). -/

/-- `runtime::Plugin`: the id, the outbound channel (as the list of events it
has carried) and the last stored view. -/
structure Plugin where
  id : Nat
  sent : List PluginEvent
  view : Option Element

/-- `runtime::PluginRuntime`: the table of live plugins. -/
structure PluginRuntime where
  plugins : List Plugin

/-- `RuntimeMessage` (named `New`/`Request`/`Shutdown` in `src/lib.rs`). -/
inductive RuntimeMessage where
  | new (p : Plugin) (id : Nat)
  | request (r : PluginRequest) (id : Nat)
  | shutdown (id : Nat)

/-- Apply `f` to the first plugin whose `id` matches, leaving everything else
unchanged — the effect of `self.plugins.iter().find(..)` /
`iter_mut().find(..)` followed by the per-request action; no match means no
change. -/
def updateFirst (f : Plugin → Plugin) (id : Nat) : List Plugin → List Plugin
  | [] => []
  | p :: ps => if p.id = id then f p :: ps else p :: updateFirst f id ps

/-- The `RuntimeMessage::Request` arm of `handle_plugin_message`:
`PluginRequest::Message(items)` sends `PluginEvent::Message(items)` on the
matching plugin's own channel, `PluginRequest::View(element)` stores the
element as the matching plugin's view; an unknown id matches nothing and
changes nothing. -/
def handleRequest (r : PluginRequest) (id : Nat) (ps : List Plugin) : List Plugin :=
  match r with
  | .message items => updateFirst (fun p => { p with sent := p.sent ++ [.message items] }) id ps
  | .view e => updateFirst (fun p => { p with view := some e }) id ps

/-- `Vec::insert(index, element)` : shift-insert at a position, used by the
`New` arm as `self.plugins.insert(id, plugin)`; the position must not exceed
the current length (Rust panics otherwise, handled by the caller below). -/
def insertAt : Nat → Plugin → List Plugin → List Plugin
  | 0, p, ps => p :: ps
  | _ + 1, p, [] => [p]
  | n + 1, p, q :: qs => q :: insertAt n p qs

/-- `PluginRuntime::handle_plugin_message`. The `New` arm first pushes the
current theme on the new plugin's channel and then calls
`self.plugins.insert(id, plugin)` — `Vec::insert` with the plugin id as a
positional index, which panics (`.error`) when `id` exceeds the current number
of plugins. `Request` and `Shutdown` (a `retain` on differing ids) never
panic. -/
def handle_plugin_message (m : RuntimeMessage) (theme : Theme) (s : PluginRuntime) :
    Except String PluginRuntime :=
  match m with
  | .request r id => .ok ⟨handleRequest r id s.plugins⟩
  | .new p id =>
      if id ≤ s.plugins.length then
        .ok ⟨insertAt id { p with sent := p.sent ++ [.theme theme] } s.plugins⟩
      else
        .error "panicked at Vec insert: insertion index should be <= len"
  | .shutdown id => .ok ⟨s.plugins.filter (fun p => p.id ≠ id)⟩

/-- `PluginRuntime::views`: one entry per plugin that has stored a view, in
table order. The source materializes each entry as an `iced` element built by
`to_element` from the stored artifact, with the produced messages tagged by the
plugin's id; an entry is therefore determined by — and modelled as — the pair
of the plugin id and its stored artifact. (`to_element` itself belongs to the
widget serialization layer that the transport treats as opaque.) -/
def views (s : PluginRuntime) : List (Nat × Element) :=
  s.plugins.filterMap (fun p => p.view.map (fun v => (p.id, v)))

/-! ## The per-connection exchange loop (`src/connection.rs`, `subscribe`)

One iteration of the `loop` in the spawned per-connection task (lines 43–56).
The outcomes of the awaited operations enter as parameters:

* `probeOk` — whether `is_open`'s 5-byte zero-probe write succeeded;
* `flushOk` — whether the unconditional `stream.flush().unwrap()` succeeded;
* `inbound` — `Some` outbound event if `updates_receiver.recv()` yielded one
  within the 500 ms timeout;
* `writeRes` — the result of `write_frame` for that event;
* `readRes` — the result of the subsequent `read_frame`. -/

/-- What one loop iteration does: keep looping (optionally forwarding a decoded
reply to the registry channel), emit `RuntimeMessage::Shutdown(id)` and end the
task, or panic (an `unwrap` on a failed operation), which kills the task
without any shutdown notification. -/
inductive LoopOutcome where
  | continueLoop (forward : Option (PluginRequest × Nat))
  | closing (shutdownId : Nat)
  | panic

/-- One iteration of the per-connection exchange loop: a failed liveness probe
sends `Shutdown(id)` and breaks; a failed flush panics (`unwrap`); with an
outbound event queued, a failed `write_frame` panics (`unwrap`) while
`read_frame` results are pattern-matched with `if let Ok(Some(..))`, so read
errors and "no message" are silently ignored and the loop continues. -/
def exchangeIteration (id : Nat) (probeOk flushOk : Bool) (inbound : Option PluginEvent)
    (writeRes : Except String Unit) (readRes : Except ReadErr (Option PluginRequest)) :
    LoopOutcome :=
  if !probeOk then .closing id
  else if !flushOk then .panic
  else
    match inbound with
    | none => .continueLoop none
    | some _ =>
        match writeRes with
        | .error _ => .panic
        | .ok _ =>
            match readRes with
            | .ok (some reply) => .continueLoop (some (reply, id))
            | _ => .continueLoop none

/-! ## Unfolding lemmas for the `read_frame` loop -/

theorem readFrame_parse_ok {α : Type} (dec : List Nat → Except String (α × List Nat))
    (s : ConnState) (f : Option α) (s₁ : ConnState)
    (h : parseFrame dec s = (.ok f, s₁)) :
    readFrame dec s = (.ok f, s₁) := by
  unfold readFrame
  split
  · rename_i f' s' heq
    rw [h] at heq
    cases heq
    rfl
  · rename_i e s' heq
    rw [h] at heq
    cases heq

theorem readFrame_parse_err_eof {α : Type} (dec : List Nat → Except String (α × List Nat))
    (s : ConnState) (e : ParseErr) (s₁ : ConnState) (cs' : List (List Nat))
    (h : parseFrame dec s = (.error e, s₁)) (h2 : readChunk s₁.chunks = ([], cs')) :
    readFrame dec s =
      if s₁.buffer = [] then (.ok none, ⟨cs', s₁.buffer⟩)
      else (.error .connectionReset, ⟨cs', s₁.buffer⟩) := by
  unfold readFrame
  split
  · rename_i f' s' heq
    rw [h] at heq
    cases heq
  · rename_i e' s' heq
    rw [h] at heq
    cases heq
    split
    · rename_i cs'' heq2
      rw [h2] at heq2
      cases heq2
      rfl
    · rename_i b c cs'' heq2
      rw [h2] at heq2
      cases heq2

theorem readFrame_parse_err_more {α : Type} (dec : List Nat → Except String (α × List Nat))
    (s : ConnState) (e : ParseErr) (s₁ : ConnState) (b : Nat) (c : List Nat)
    (cs' : List (List Nat))
    (h : parseFrame dec s = (.error e, s₁)) (h2 : readChunk s₁.chunks = (b :: c, cs')) :
    readFrame dec s = readFrame dec ⟨cs', s₁.buffer ++ (b :: c)⟩ := by
  conv_lhs => rw [readFrame.eq_def]
  split
  · rename_i f' s' heq
    rw [h] at heq
    cases heq
  · rename_i e' s' heq
    rw [h] at heq
    cases heq
    split
    · rename_i cs'' heq2
      rw [h2] at heq2
      cases heq2
    · rename_i b' c' cs'' heq2
      rw [h2] at heq2
      cases heq2
      rfl

theorem readExact4_chunk (a b c d x : Nat) (xs : List Nat) (rest : List (List Nat)) :
    readExact 4 ((a :: b :: c :: d :: x :: xs) :: rest) =
      (some [a, b, c, d], (x :: xs) :: rest) := by
  simp [readExact, read1]

theorem readExact4_exact (a b c d : Nat) (rest : List (List Nat)) :
    readExact 4 ([a, b, c, d] :: rest) = (some [a, b, c, d], rest) := by
  simp [readExact, read1]

/-- A liveness probe (`[0, 0, 0, 0, 0]`, written by `is_open`) parses as "no
message" and consumes exactly its five bytes, leaving the buffer untouched. -/
theorem parseFrame_probe {α : Type} (dec : List Nat → Except String (α × List Nat))
    (rest : List (List Nat)) (buf : List Nat) :
    parseFrame dec ⟨(0 :: 0 :: 0 :: 0 :: 0 :: []) :: rest, buf⟩ = (.ok none, ⟨rest, buf⟩) := by
  unfold parseFrame
  rw [readExact4_chunk]
  simp [leVal, read1]

/-- A frame delivered in one chunk (header and payload together) parses to its
message when the payload decodes, and returns the buffer to empty. -/
theorem parseFrame_frame {α : Type} (dec : List Nat → Except String (α × List Nat))
    (payload : List Nat) (m : α) (r : List Nat) (rest : List (List Nat))
    (hL : payload.length % 2 ^ 32 ≠ 0) (hdec : dec payload = .ok (m, r)) :
    parseFrame dec ⟨(encLE 4 payload.length ++ payload) :: rest, []⟩ =
      (.ok (some m), ⟨rest, []⟩) := by
  have hne : payload ≠ [] := by
    intro hnil
    rw [hnil] at hL
    simp at hL
  obtain ⟨x, xs, hx⟩ : ∃ x xs, payload = x :: xs := by
    cases payload with
    | nil => exact absurd rfl hne
    | cons x xs => exact ⟨x, xs, rfl⟩
  subst hx
  have hsize : leVal (encLE 4 (x :: xs).length) = (x :: xs).length % 2 ^ 32 := by
    rw [leVal_encLE]
    norm_num
  have he : encLE 4 (x :: xs).length =
      [(x :: xs).length % 256, (x :: xs).length / 256 % 256,
       (x :: xs).length / 256 / 256 % 256, (x :: xs).length / 256 / 256 / 256 % 256] := by
    simp [encLE]
  unfold parseFrame
  rw [he] at hsize
  simp only [he, List.cons_append, List.nil_append, readExact4_chunk]
  rw [hsize]
  rw [if_neg hL]
  unfold parsePayload
  simp only [readChunk]
  rw [if_neg (by simpa using hL)]
  simp [hdec, List.drop_length]

/-- End of stream with nothing pending: "no message" on an empty buffer,
`connection reset by peer` on a non-empty one (the shutdown behaviour of
`read_frame`). -/
theorem readFrame_eof {α : Type} (dec : List Nat → Except String (α × List Nat))
    (b : List Nat) :
    readFrame dec ⟨[], b⟩ =
      if b = [] then (.ok none, ⟨[], b⟩) else (.error .connectionReset, ⟨[], b⟩) := by
  have hp : parseFrame dec ⟨[], b⟩ = (.error .unexpectedEof, ⟨[], b⟩) := by
    simp [parseFrame, readExact, read1]
  exact readFrame_parse_err_eof dec _ _ _ [] hp (by simp [readChunk])

theorem readFrame_probe {α : Type} (dec : List Nat → Except String (α × List Nat))
    (rest : List (List Nat)) (buf : List Nat) :
    readFrame dec ⟨(0 :: 0 :: 0 :: 0 :: 0 :: []) :: rest, buf⟩ = (.ok none, ⟨rest, buf⟩) :=
  readFrame_parse_ok dec _ _ _ (parseFrame_probe dec rest buf)

theorem readFrame_frame {α : Type} (dec : List Nat → Except String (α × List Nat))
    (payload : List Nat) (m : α) (r : List Nat) (rest : List (List Nat))
    (hL : payload.length % 2 ^ 32 ≠ 0) (hdec : dec payload = .ok (m, r)) :
    readFrame dec ⟨(encLE 4 payload.length ++ payload) :: rest, []⟩ =
      (.ok (some m), ⟨rest, []⟩) :=
  readFrame_parse_ok dec _ _ _ (parseFrame_frame dec payload m r rest hL hdec)

/-! ## Frame round-trip (claim C1) -/

/-- The message `m` survives the wire: `write_frame` produces a byte sequence,
and `read_frame` on a fresh connection that receives exactly those bytes
reports exactly `m`. -/
def frameDelivers {α : Type} (enc : α → Except EncodeErr (List Nat))
    (dec : List Nat → Except String (α × List Nat)) (m : α) : Prop :=
  ∃ bytes, writeFrameBytes enc m = .ok bytes ∧
    readFrame dec ⟨[bytes], []⟩ = (.ok (some m), ⟨[], []⟩)

theorem frameDelivers_of (enc : α → Except EncodeErr (List Nat))
    (dec : List Nat → Except String (α × List Nat)) (m : α) (payload r : List Nat)
    (henc : enc m = .ok payload) (hL : payload.length % 2 ^ 32 ≠ 0)
    (hdec : dec payload = .ok (m, r)) : frameDelivers enc dec m := by
  refine ⟨encLE 4 payload.length ++ payload, ?_, ?_⟩
  · simp [writeFrameBytes, henc, Except.map]
  · exact readFrame_frame dec payload m r [] hL hdec

theorem encMessagePayload_length_ok (v : List Nat) (hv : v.length < 2 ^ 32 - 9) :
    (encVarint 1 ++ encBytes v).length % 2 ^ 32 ≠ 0 := by
  have h5 : (encVarint v.length).length ≤ 5 := encVarint_length_le v.length (by omega)
  have h1 : (encVarint 1 ++ encBytes v).length =
      1 + ((encVarint v.length).length + v.length) := by
    have : encVarint 1 = [1] := by simp [encVarint]
    simp [this, encBytes]
    omega
  rw [h1]
  omega

theorem decodePluginRequest_message (v : List Nat) (h : v.length < 2 ^ 64)
    (rest : List Nat) :
    decodePluginRequest ((encVarint 1 ++ encBytes v) ++ rest) = .ok (.message v, rest) := by
  rw [List.append_assoc]
  unfold decodePluginRequest
  rw [decVarint_encVarint_small 32 1 (by norm_num)]
  simp [decBytes_encBytes v h]

theorem encTheme_payload_length_ok (t : Theme) :
    (encodePluginEvent (.theme t)).length % 2 ^ 32 ≠ 0 := by
  have h2 : encVarint 2 = [2] := by simp [encVarint]
  have : (encodePluginEvent (.theme t)).length = 562 := by
    simp [encodePluginEvent, h2, encTheme_length]
  rw [this]
  norm_num

/-- C1: for every message of either union, encoding with `write_frame` (which
prepends the 4-byte little-endian payload length and flushes) and reading the
resulting bytes back with `read_frame` yields the message again — for the
`Update`, `Message` and `Theme` events and the `Message` request.  The
`PluginRequest::View` variant, however, cannot even be encoded: its `Element`
payload is a `typetag` internally tagged trait object, which bincode rejects,
so `write_frame` fails and no variant-complete round-trip exists. -/
theorem c1_frame_round_trip :
    frameDelivers encodePluginEventE decodePluginEvent .update
    ∧ (∀ t : Theme, frameDelivers encodePluginEventE decodePluginEvent (.theme t))
    ∧ (∀ v : List Nat, v.length < 2 ^ 32 - 9 →
        frameDelivers encodePluginEventE decodePluginEvent (.message v))
    ∧ (∀ v : List Nat, v.length < 2 ^ 32 - 9 →
        frameDelivers encodePluginRequest decodePluginRequest (.message v))
    ∧ (∀ e : Element,
        writeFrameBytes encodePluginRequest (.view e) = .error .sequenceMustHaveLength) := by
  refine ⟨?_, ?_, ?_, ?_, ?_⟩
  · obtain ⟨r, hr⟩ := decodePluginEvent_enc .update (by intro v hv; cases hv) []
    rw [List.append_nil] at hr
    refine frameDelivers_of _ _ _ _ r rfl ?_ hr
    have : encodePluginEvent .update = [0] := by simp [encodePluginEvent, encVarint]
    rw [this]
    norm_num
  · intro t
    obtain ⟨r, hr⟩ := decodePluginEvent_enc (.theme t) (by intro v hv; cases hv) []
    rw [List.append_nil] at hr
    exact frameDelivers_of _ _ _ _ r rfl (encTheme_payload_length_ok t) hr
  · intro v h
    obtain ⟨r, hr⟩ := decodePluginEvent_enc (.message v) (by intro v' hv'; cases hv'; omega) []
    rw [List.append_nil] at hr
    exact frameDelivers_of _ _ _ _ r rfl (encMessagePayload_length_ok v h) hr
  · intro v h
    have hdec := decodePluginRequest_message v (by omega) []
    rw [List.append_nil] at hdec
    exact frameDelivers_of _ _ _ _ [] rfl (encMessagePayload_length_ok v h) hdec
  · intro e
    rfl

/-- Witness for C1: the bound holds at a concrete message and the round trip
delivers it. -/
theorem c1_frame_round_trip_witness :
    ([3, 1, 4] : List Nat).length < 2 ^ 32 - 9
    ∧ frameDelivers encodePluginEventE decodePluginEvent (.message [3, 1, 4]) :=
  ⟨by norm_num, c1_frame_round_trip.2.2.1 [3, 1, 4] (by norm_num)⟩

/-! ## Length mismatches and partial reads (claims C3, C4, C5) -/

/-- When the declared length `L` disagrees with the bytes delivered by the
single payload read, `parse_frame` fails with the size-mismatch (framing)
error, leaving the mis-read bytes in the accumulation buffer. -/
theorem parseFrame_mismatch {α : Type} (dec : List Nat → Except String (α × List Nat))
    (L x : Nat) (xs : List Nat) (cs : List (List Nat)) (buf : List Nat)
    (hL0 : 0 < L) (hL : L < 2 ^ 32) (hne : (x :: xs).length % 2 ^ 32 ≠ L) :
    parseFrame dec ⟨encLE 4 L :: (x :: xs) :: cs, buf⟩
      = (.error .sizeMismatch, ⟨cs, buf ++ (x :: xs)⟩) := by
  have he : encLE 4 L =
      [L % 256, L / 256 % 256, L / 256 / 256 % 256, L / 256 / 256 / 256 % 256] := by
    simp [encLE]
  have hsize : leVal (encLE 4 L) = L := by
    rw [leVal_encLE]
    have h4 : (256 : Nat) ^ 4 = 2 ^ 32 := by norm_num
    rw [h4]
    omega
  rw [he] at hsize
  unfold parseFrame
  simp only [he, readExact4_exact]
  rw [hsize]
  rw [if_neg (by omega)]
  unfold parsePayload
  simp only [readChunk]
  rw [if_pos (Ne.symm hne)]

/-- C3 amended: a declared-length mismatch makes `parse_frame` fail internally
with the size-mismatch error, but `read_frame` does not return that error to
the caller: its `if let Ok` loop swallows it, reads more bytes, and re-parses
from the middle of the stream. On the concrete mismatch input (declared
length 10, two payload bytes, then end of stream) the caller observes
`ConnectionReset`, not a framing error. -/
theorem c3_mismatch_swallowed_and_reparsed :
    (∀ (α : Type) (dec : List Nat → Except String (α × List Nat)) (L x : Nat)
       (xs : List Nat) (cs : List (List Nat)) (buf : List Nat),
       0 < L → L < 2 ^ 32 → (x :: xs).length % 2 ^ 32 ≠ L →
       parseFrame dec ⟨encLE 4 L :: (x :: xs) :: cs, buf⟩
         = (.error .sizeMismatch, ⟨cs, buf ++ (x :: xs)⟩))
    ∧ readFrame decodePluginRequest ⟨[[10, 0, 0, 0], [1, 1]], []⟩
        = (.error .connectionReset, ⟨[], [1, 1]⟩) := by
  constructor
  · intro α dec L x xs cs buf hL0 hL hne
    exact parseFrame_mismatch dec L x xs cs buf hL0 hL hne
  · have hp : parseFrame decodePluginRequest ⟨[[10, 0, 0, 0], [1, 1]], []⟩
        = (.error .sizeMismatch, ⟨[], [1, 1]⟩) := by rfl
    have := readFrame_parse_err_eof decodePluginRequest _ _ _ [] hp (by rfl)
    simpa using this

/-- Witness for the amended C3: the general mismatch conclusion instantiated
at declared length 10 against a 2-byte read. -/
theorem c3_mismatch_swallowed_and_reparsed_witness :
    parseFrame decodePluginRequest ⟨encLE 4 10 :: (1 :: [1]) :: [], []⟩
      = (.error .sizeMismatch, ⟨[], [] ++ (1 :: [1])⟩) :=
  c3_mismatch_swallowed_and_reparsed.1 PluginRequest decodePluginRequest 10 1 [1] [] []
    (by norm_num) (by norm_num) (by norm_num)

/-- Counterexample to C3 as stated: on this stream the first frame declares
length 5 but the read delivers a single byte — a length mismatch — yet
`read_frame` neither fails with a framing error nor abandons the data: it
silently re-parses and reports an `Update` message that was never framed. -/
theorem c3_counterexample :
    readFrame decodePluginEvent ⟨[[5, 0, 0, 0], [0], [9], [2, 0, 0, 0], [0, 5]], []⟩
      = (.ok (some .update), ⟨[], [0, 5]⟩) := by
  have h1 : parseFrame decodePluginEvent ⟨[[5, 0, 0, 0], [0], [9], [2, 0, 0, 0], [0, 5]], []⟩
      = (.error .sizeMismatch, ⟨[[9], [2, 0, 0, 0], [0, 5]], [0]⟩) := by rfl
  rw [readFrame_parse_err_more decodePluginEvent _ _ _ 9 [] _ h1 (by rfl)]
  exact readFrame_parse_ok _ _ _ _ (by rfl)

/-- C4 evaluated: the frame for `PluginEvent::Message([5])` delivered whole
decodes to its message, but the same bytes split at chunk boundaries
`[3,0,0,0] / [1,1] / [5]` make `read_frame` fail with `ConnectionReset` —
partial reads land in the accumulation buffer but `parse_frame` never parses
from it, so chunked delivery is not equivalent to whole delivery. -/
theorem c4_split_delivery_differs :
    readFrame decodePluginEvent ⟨[[3, 0, 0, 0, 1, 1, 5]], []⟩
      = (.ok (some (.message [5])), ⟨[], []⟩)
    ∧ readFrame decodePluginEvent ⟨[[3, 0, 0, 0], [1, 1], [5]], []⟩
      = (.error .connectionReset, ⟨[], [1, 1, 5]⟩) := by
  constructor
  · exact readFrame_parse_ok _ _ _ _ (by rfl)
  · have h1 : parseFrame decodePluginEvent ⟨[[3, 0, 0, 0], [1, 1], [5]], []⟩
        = (.error .sizeMismatch, ⟨[[5]], [1, 1]⟩) := by rfl
    rw [readFrame_parse_err_more decodePluginEvent _ _ _ 5 [] _ h1 (by rfl)]
    have h2 : parseFrame decodePluginEvent ⟨[], [1, 1] ++ (5 :: [])⟩
        = (.error .unexpectedEof, ⟨[], [1, 1, 5]⟩) := by rfl
    have := readFrame_parse_err_eof decodePluginEvent _ _ _ [] h2 (by rfl)
    simpa using this

/-- C5: `read_frame`'s shutdown behaviour. On a cleanly closed stream it
returns "no message" when the accumulation buffer is empty and fails with
`ConnectionReset` when a partial frame is buffered; in particular, a peer that
closes after delivering 2 of a declared 10 payload bytes produces
`ConnectionReset`. -/
theorem c5_shutdown_behaviour :
    (∀ (α : Type) (dec : List Nat → Except String (α × List Nat)),
        readFrame dec ⟨[], []⟩ = (.ok none, ⟨[], []⟩))
    ∧ (∀ (α : Type) (dec : List Nat → Except String (α × List Nat)) (b : List Nat),
        b ≠ [] → readFrame dec ⟨[], b⟩ = (.error .connectionReset, ⟨[], b⟩))
    ∧ readFrame decodePluginRequest ⟨[[10, 0, 0, 0], [3, 7]], []⟩
        = (.error .connectionReset, ⟨[], [3, 7]⟩) := by
  refine ⟨?_, ?_, ?_⟩
  · intro α dec
    have := readFrame_eof dec []
    simpa using this
  · intro α dec b hb
    have := readFrame_eof dec b
    rwa [if_neg hb] at this
  · have hp : parseFrame decodePluginRequest ⟨[[10, 0, 0, 0], [3, 7]], []⟩
        = (.error .sizeMismatch, ⟨[], [3, 7]⟩) := by rfl
    have := readFrame_parse_err_eof decodePluginRequest _ _ _ [] hp (by rfl)
    simpa using this

/-- Witness for C5: the buffered-shutdown conclusion at a concrete buffer. -/
theorem c5_shutdown_behaviour_witness :
    ([9] : List Nat) ≠ []
    ∧ readFrame decodePluginEvent ⟨[], [9]⟩ = (.error .connectionReset, ⟨[], [9]⟩) :=
  ⟨by simp, c5_shutdown_behaviour.2.1 PluginEvent decodePluginEvent [9] (by simp)⟩

/-! ## Liveness probe transparency (claim C9) -/

/-- One item on the wire: a liveness probe or a real framed message. -/
inductive Wire where
  | probe
  | frame (m : PluginEvent)

/-- The bytes a wire item contributes: five zero bytes for a probe (as written
by `is_open`), a `write_frame` image — length prefix plus bincode payload —
for a real frame; each item arrives as one read's worth of data. -/
def wireChunk : Wire → List Nat
  | .probe => 0 :: 0 :: 0 :: 0 :: 0 :: []
  | .frame m => encLE 4 (encodePluginEvent m).length ++ encodePluginEvent m

def wireChunks (ws : List Wire) : List (List Nat) := ws.map wireChunk

/-- The real messages carried by a wire sequence, in order. -/
def realMessages : List Wire → List PluginEvent
  | [] => []
  | .probe :: ws => realMessages ws
  | .frame m :: ws => m :: realMessages ws

/-- Whether a wire item is a real frame. -/
def Wire.isFrame : Wire → Bool
  | .probe => false
  | .frame _ => true

/-- A frame whose encoded payload neither collides with the probe sentinel
after the `u32` length cast nor overflows a `u64` byte count. -/
def wireOk : Wire → Prop
  | .probe => True
  | .frame m => (encodePluginEvent m).length % 2 ^ 32 ≠ 0
      ∧ ∀ v, m = .message v → v.length < 2 ^ 64

theorem realMessages_filter (ws : List Wire) :
    realMessages (ws.filter Wire.isFrame) = realMessages ws := by
  induction ws with
  | nil => rfl
  | cons w ws ih =>
      cases w with
      | probe => simpa [List.filter, Wire.isFrame, realMessages] using ih
      | frame m => simpa [List.filter, Wire.isFrame, realMessages] using ih

theorem readN_wire (ws : List Wire) (hok : ∀ w ∈ ws, wireOk w) :
    readN decodePluginEvent ws.length ⟨wireChunks ws, []⟩ = (realMessages ws, ⟨[], []⟩) := by
  induction ws with
  | nil => rfl
  | cons w ws ih =>
      have hok' : ∀ w ∈ ws, wireOk w := fun w hw => hok w (List.mem_cons_of_mem _ hw)
      cases w with
      | probe =>
          have hrf := readFrame_probe decodePluginEvent (wireChunks ws) []
          simp only [wireChunks] at hrf
          simp only [wireChunks, List.map_cons, List.length_cons, realMessages, wireChunk]
          rw [readN, hrf]
          simpa [wireChunks] using ih hok'
      | frame m =>
          obtain ⟨hL, hv⟩ := hok (.frame m) (List.mem_cons_self _ _)
          obtain ⟨r, hr⟩ := decodePluginEvent_enc m hv []
          rw [List.append_nil] at hr
          have hrf := readFrame_frame decodePluginEvent (encodePluginEvent m) m r
            (wireChunks ws) hL hr
          simp only [wireChunks] at hrf
          have ih' := ih hok'
          simp only [wireChunks] at ih'
          simp only [wireChunks, List.map_cons, List.length_cons, realMessages, wireChunk]
          rw [readN, hrf]
          simp [ih']

/-- C9: a zero length field followed by one `0x00` sentinel byte (a liveness
probe) makes `read_frame` return "no message" for that read rather than a
zero-length real message, and any number of probes interleaved between real
frames leaves the sequence of real messages reported by repeated reads
unchanged in count and content — it equals the sequence reported for the
probe-free stream. -/
theorem c9_probe_transparency :
    (∀ (α : Type) (dec : List Nat → Except String (α × List Nat))
       (rest : List (List Nat)) (buf : List Nat),
       readFrame dec ⟨(0 :: 0 :: 0 :: 0 :: 0 :: []) :: rest, buf⟩ = (.ok none, ⟨rest, buf⟩))
    ∧ (∀ ws : List Wire, (∀ w ∈ ws, wireOk w) →
       (readN decodePluginEvent ws.length ⟨wireChunks ws, []⟩).1 = realMessages ws
       ∧ (readN decodePluginEvent (ws.filter Wire.isFrame).length
            ⟨wireChunks (ws.filter Wire.isFrame), []⟩).1 = realMessages ws) := by
  constructor
  · exact fun α dec rest buf => readFrame_probe dec rest buf
  · intro ws hok
    constructor
    · rw [readN_wire ws hok]
    · have hok' : ∀ w ∈ ws.filter Wire.isFrame, wireOk w := fun w hw =>
        hok w (List.mem_of_mem_filter hw)
      rw [readN_wire _ hok', realMessages_filter]

/-- Witness for C9: three probes interleaved with two real frames report
exactly the two real messages. -/
theorem c9_probe_transparency_witness :
    (readN decodePluginEvent 5
        ⟨wireChunks [Wire.probe, .frame .update, .probe, .frame (.message [7]), .probe],
          []⟩).1
      = [PluginEvent.update, .message [7]] := by
  have h := (c9_probe_transparency.2
      [Wire.probe, .frame .update, .probe, .frame (.message [7]), .probe]
      (by
        intro w hw
        simp only [List.mem_cons, List.not_mem_nil, or_false] at hw
        rcases hw with h | h | h | h | h <;> subst h <;>
          simp [wireOk, encodePluginEvent, encVarint, encBytes])).1
  simpa [realMessages] using h

/-! ## Registry lemmas and theorems (claims C2, C7, C8, C10) -/

/-- An all-zero theme snapshot, used to instantiate theorems at concrete
inputs. -/
def theme0 : Theme :=
  let c : Color := ⟨0, 0, 0, 0⟩
  let p : Pair := ⟨c, c⟩
  let t : PairTriple := ⟨p, p, p⟩
  ⟨⟨c, c, c, c, c⟩, ⟨t, t, t, t, t, false⟩⟩

theorem mem_zip_self {β : Type} :
    ∀ (ps : List β) (pr : β × β), pr ∈ ps.zip ps → pr.1 = pr.2 := by
  intro ps
  induction ps with
  | nil => intro pr h; simp at h
  | cons p ps ih =>
      intro pr h
      rcases List.mem_cons.mp h with h | h
      · rw [h]
      · exact ih pr h

theorem updateFirst_map_id (f : Plugin → Plugin) (hf : ∀ p, (f p).id = p.id) (id : Nat) :
    ∀ ps : List Plugin, (updateFirst f id ps).map Plugin.id = ps.map Plugin.id := by
  intro ps
  induction ps with
  | nil => rfl
  | cons p ps ih =>
      by_cases h : p.id = id
      · simp [updateFirst, h, hf]
      · simp [updateFirst, h, ih]

theorem updateFirst_not_mem (f : Plugin → Plugin) (id : Nat) :
    ∀ ps : List Plugin, id ∉ ps.map Plugin.id → updateFirst f id ps = ps := by
  intro ps
  induction ps with
  | nil => intro _; rfl
  | cons p ps ih =>
      intro h
      simp only [List.map_cons, List.mem_cons] at h
      push_neg at h
      obtain ⟨h1, h2⟩ := h
      simp only [updateFirst]
      rw [if_neg (fun hh => h1 hh.symm), ih h2]

theorem updateFirst_zip_ne (f : Plugin → Plugin) (id : Nat) :
    ∀ ps : List Plugin, ∀ pr ∈ (updateFirst f id ps).zip ps, pr.2.id ≠ id → pr.1 = pr.2 := by
  intro ps
  induction ps with
  | nil => intro pr h; simp [updateFirst] at h
  | cons p ps ih =>
      intro pr h hne
      by_cases hc : p.id = id
      · simp only [updateFirst, if_pos hc, List.zip_cons_cons] at h
        rcases List.mem_cons.mp h with h | h
        · rw [h] at hne ⊢
          exact absurd hc hne
        · exact mem_zip_self ps pr h
      · simp only [updateFirst, if_neg hc, List.zip_cons_cons] at h
        rcases List.mem_cons.mp h with h | h
        · rw [h]
        · exact ih pr h hne

theorem updateFirst_view_of_nodup (e : Element) (id : Nat) :
    ∀ ps : List Plugin, (ps.map Plugin.id).Nodup →
      ∀ p ∈ updateFirst (fun q => { q with view := some e }) id ps,
        p.id = id → p.view = some e := by
  intro ps
  induction ps with
  | nil => intro _ p hp; simp [updateFirst] at hp
  | cons q ps ih =>
      intro hnd p hp hid
      simp only [List.map_cons, List.nodup_cons] at hnd
      obtain ⟨hq, hnd'⟩ := hnd
      by_cases hc : q.id = id
      · simp only [updateFirst, if_pos hc] at hp
        rcases List.mem_cons.mp hp with h | h
        · rw [h]
        · exact absurd (List.mem_map.mpr ⟨p, h, by rw [hid, hc]⟩) hq
      · simp only [updateFirst, if_neg hc] at hp
        rcases List.mem_cons.mp hp with h | h
        · rw [h] at hid
          exact absurd hid hc
        · exact ih hnd' p h hid

theorem views_entry_eq (ps : List Plugin) (id : Nat) (B : Element)
    (hB : ∀ p ∈ ps, p.id = id → p.view = some B) :
    ∀ v, (id, v) ∈ views ⟨ps⟩ → v = B := by
  intro v hv
  simp only [views, List.mem_filterMap] at hv
  obtain ⟨p, hp, he⟩ := hv
  cases hview : p.view with
  | none => rw [hview] at he; simp at he
  | some w =>
      rw [hview] at he
      simp only [Option.map_some'] at he
      have h1 : p.id = id := congrArg Prod.fst (Option.some.inj he)
      have h2 : w = v := congrArg Prod.snd (Option.some.inj he)
      have hBv := hB p hp h1
      rw [hview] at hBv
      rw [← h2]
      exact Option.some.inj hBv

theorem handleRequest_not_mem (r : PluginRequest) (id : Nat) (ps : List Plugin)
    (h : id ∉ ps.map Plugin.id) : handleRequest r id ps = ps := by
  cases r with
  | message items => exact updateFirst_not_mem _ id ps h
  | view e => exact updateFirst_not_mem _ id ps h

/-- C2 evaluated at its failing input: the empty registry has no registered
ids — so id 1 is in particular not yet registered — and yet handling
`Registered(plugin, 1)` panics inside `self.plugins.insert(id, plugin)`
(`Vec::insert` with index 1 on a vector of length 0) instead of succeeding:
the plugin id is used as a positional index into the `Vec`, not as a key. -/
theorem c2_registration_panics :
    ∀ theme : Theme,
      (1 ∉ (([] : List Plugin).map Plugin.id))
      ∧ handle_plugin_message (.new ⟨1, [], none⟩ 1) theme ⟨[]⟩
          = .error "panicked at Vec insert: insertion index should be <= len" := by
  intro theme
  exact ⟨by simp, rfl⟩

/-- C7: after the registry handles `Unregistered(id)` (called `Shutdown` in
the source), `views()` contains no entry for `id`; a stale
`RequestReceived(_, id)` delivered afterwards leaves the registry unchanged;
and, in general, `Request` and `Shutdown` events whose id was never registered
are no-ops that leave the registry state entirely unchanged. -/
theorem c7_unregister_and_stale_events :
    ∀ (s : PluginRuntime) (id : Nat) (theme : Theme),
      (handle_plugin_message (.shutdown id) theme s
          = .ok ⟨s.plugins.filter (fun p => p.id ≠ id)⟩)
      ∧ (∀ e ∈ views ⟨s.plugins.filter (fun p => p.id ≠ id)⟩, e.1 ≠ id)
      ∧ (∀ (r : PluginRequest) (theme2 : Theme),
           handle_plugin_message (.request r id) theme2
               ⟨s.plugins.filter (fun p => p.id ≠ id)⟩
             = .ok ⟨s.plugins.filter (fun p => p.id ≠ id)⟩)
      ∧ (∀ (s2 : PluginRuntime) (r : PluginRequest) (id2 : Nat) (theme2 : Theme),
           id2 ∉ s2.plugins.map Plugin.id →
           handle_plugin_message (.request r id2) theme2 s2 = .ok s2
           ∧ handle_plugin_message (.shutdown id2) theme2 s2 = .ok s2) := by
  intro s id theme
  have hfilter : id ∉ (s.plugins.filter (fun p => p.id ≠ id)).map Plugin.id := by
    intro hmem
    obtain ⟨p, hp, hpid⟩ := List.mem_map.mp hmem
    rw [List.mem_filter] at hp
    simp only [decide_not, Bool.not_eq_true', decide_eq_false_iff_not] at hp
    exact hp.2 hpid
  refine ⟨rfl, ?_, ?_, ?_⟩
  · intro e he
    simp only [views, List.mem_filterMap] at he
    obtain ⟨p, hp, hmap⟩ := he
    rw [List.mem_filter] at hp
    simp only [decide_not, Bool.not_eq_true', decide_eq_false_iff_not] at hp
    cases hview : p.view with
    | none => rw [hview] at hmap; simp at hmap
    | some w =>
        rw [hview] at hmap
        simp only [Option.map_some'] at hmap
        have h1 : p.id = e.1 := congrArg Prod.fst (Option.some.inj hmap)
        rw [← h1]
        exact hp.2
  · intro r theme2
    simp only [handle_plugin_message]
    rw [handleRequest_not_mem r id _ hfilter]
  · intro s2 r id2 theme2 hid2
    constructor
    · simp only [handle_plugin_message]
      rw [handleRequest_not_mem r id2 _ hid2]
    · simp only [handle_plugin_message]
      have : s2.plugins.filter (fun p => p.id ≠ id2) = s2.plugins := by
        apply List.filter_eq_self.mpr
        intro p hp
        simp only [decide_not, Bool.not_eq_true', decide_eq_false_iff_not]
        intro hpid
        exact hid2 (List.mem_map.mpr ⟨p, hp, hpid⟩)
      rw [this]

/-- Witness for C7: a request for the unregistered id 5 leaves a one-plugin
registry unchanged. -/
theorem c7_unregister_and_stale_events_witness :
    handle_plugin_message (.request (.message [1]) 5) theme0 ⟨[⟨0, [], none⟩]⟩
      = .ok ⟨[⟨0, [], none⟩]⟩ :=
  ((c7_unregister_and_stale_events ⟨[⟨0, [], none⟩]⟩ 0 theme0).2.2.2
    ⟨[⟨0, [], none⟩]⟩ (.message [1]) 5 theme0 (by simp)).1

/-- C8: for a registered plugin id (ids being unique in the table, per the
spec's ownership invariant), handling `ViewProduced(A)` and then
`ViewProduced(B)` stores exactly `B` — replaced wholesale — so `views()`
yields `B` and never `A` for that id; a plugin that has produced no view
contributes no entry, and a registry whose plugins have produced no views has
empty `views()`. -/
theorem c8_last_view_overwrite :
    ∀ (s : PluginRuntime) (id : Nat) (A B : Element) (theme1 : Theme),
      (s.plugins.map Plugin.id).Nodup → id ∈ s.plugins.map Plugin.id →
      handle_plugin_message (.request (.view A) id) theme1 s
          = .ok ⟨handleRequest (.view A) id s.plugins⟩
      ∧ (∀ p ∈ handleRequest (.view B) id (handleRequest (.view A) id s.plugins),
           p.id = id → p.view = some B)
      ∧ (∀ v, (id, v) ∈
           views ⟨handleRequest (.view B) id (handleRequest (.view A) id s.plugins)⟩ →
           v = B)
      ∧ (∀ ps : List Plugin, (∀ p ∈ ps, p.view = none) → views ⟨ps⟩ = []) := by
  intro s id A B theme1 hnd _hmem
  have hnd' : ((handleRequest (.view A) id s.plugins).map Plugin.id).Nodup := by
    simp only [handleRequest]
    rw [updateFirst_map_id (fun p => { p with view := some A }) (fun p => rfl) id s.plugins]
    exact hnd
  have hview : ∀ p ∈ handleRequest (.view B) id (handleRequest (.view A) id s.plugins),
      p.id = id → p.view = some B :=
    updateFirst_view_of_nodup B id _ hnd'
  refine ⟨rfl, hview, views_entry_eq _ id B hview, ?_⟩
  intro ps h
  simp only [views]
  rw [List.filterMap_eq_nil]
  intro p hp
  rw [h p hp]
  rfl

/-- Witness for C8: in a one-plugin registry the stored view after
`View(A)` then `View(B)` is exactly `B`. -/
theorem c8_last_view_overwrite_witness :
    (Plugin.mk 0 [] (some (Element.mk (.space .shrink .shrink)))).view
      = some (Element.mk (.space .shrink .shrink)) :=
  ((c8_last_view_overwrite ⟨[⟨0, [], none⟩]⟩ 0 (Element.mk (.space .fill .fill))
      (Element.mk (.space .shrink .shrink)) theme0 (by simp) (by simp)).2.1)
    ⟨0, [], some (Element.mk (.space .shrink .shrink))⟩ (List.Mem.head _) rfl

/-- C10: handling any `Request` event (either a `View` or a `Message` request,
with any id) never adds a plugin to or removes one from the registry — the
plugin ids afterwards equal the ids before, position by position — and every
plugin whose id differs from the event's id is left entirely unchanged (id,
channel and view). -/
theorem c10_request_is_frame :
    ∀ (r : PluginRequest) (pid : Nat) (theme : Theme) (s : PluginRuntime),
      handle_plugin_message (.request r pid) theme s = .ok ⟨handleRequest r pid s.plugins⟩
      ∧ (handleRequest r pid s.plugins).map Plugin.id = s.plugins.map Plugin.id
      ∧ ∀ pr ∈ (handleRequest r pid s.plugins).zip s.plugins, pr.2.id ≠ pid → pr.1 = pr.2 := by
  intro r pid theme s
  refine ⟨rfl, ?_, ?_⟩
  · cases r with
    | message items =>
        simp only [handleRequest]
        exact updateFirst_map_id
          (fun p => { p with sent := p.sent ++ [PluginEvent.message items] })
          (fun p => rfl) pid s.plugins
    | view e =>
        simp only [handleRequest]
        exact updateFirst_map_id (fun p => { p with view := some e })
          (fun p => rfl) pid s.plugins
  · cases r with
    | message items =>
        simp only [handleRequest]
        exact updateFirst_zip_ne _ pid s.plugins
    | view e =>
        simp only [handleRequest]
        exact updateFirst_zip_ne _ pid s.plugins

/-- Witness for C10: a message request to id 0 keeps the id sequence `[0, 1]`
and leaves the plugin with id 1 unchanged. -/
theorem c10_request_is_frame_witness :
    (handleRequest (.message [3]) 0 [⟨0, [], none⟩, ⟨1, [], none⟩]).map Plugin.id
        = ([⟨0, [], none⟩, ⟨1, [], none⟩] : List Plugin).map Plugin.id
    ∧ (Plugin.mk 1 [] none) = ⟨1, [], none⟩ := by
  have h := c10_request_is_frame (.message [3]) 0 theme0 ⟨[⟨0, [], none⟩, ⟨1, [], none⟩]⟩
  refine ⟨h.2.1, ?_⟩
  exact h.2.2 (⟨1, [], none⟩, ⟨1, [], none⟩) (List.Mem.tail _ (List.Mem.head _))
    (by norm_num)

/-! ## Exchange-loop failure handling (claim C6) -/

/-- Counterexample to C6 as stated: on a write failure the exchange loop
panics through `unwrap` — killing the task with no `Shutdown` emission —
instead of transitioning to Closing and emitting `Unregistered`. -/
theorem c6_counterexample :
    exchangeIteration 7 true true (some .update) (.error "Broken pipe") (.ok none) = .panic
    ∧ LoopOutcome.panic ≠ .closing 7 :=
  ⟨rfl, fun h => LoopOutcome.noConfusion h⟩

/-- C6 amended: only a failed liveness probe makes the loop emit
`Shutdown(id)` and terminate; a write failure (and likewise a flush failure)
panics the task without emitting anything, and a read failure other than "no
message" is silently ignored — the loop just continues. In all cases only the
connection's own task is affected. -/
theorem c6_failure_handling :
    (∀ (id : Nat) (flushOk : Bool) (inbound : Option PluginEvent)
       (writeRes : Except String Unit) (readRes : Except ReadErr (Option PluginRequest)),
       exchangeIteration id false flushOk inbound writeRes readRes = .closing id)
    ∧ (∀ (id : Nat) (ev : PluginEvent) (e : String)
         (readRes : Except ReadErr (Option PluginRequest)),
       exchangeIteration id true true (some ev) (.error e) readRes = .panic)
    ∧ (∀ (id : Nat) (ev : PluginEvent) (e : ReadErr),
       exchangeIteration id true true (some ev) (.ok ()) (.error e) = .continueLoop none)
    ∧ (∀ (id : Nat) (inbound : Option PluginEvent) (writeRes : Except String Unit)
         (readRes : Except ReadErr (Option PluginRequest)),
       exchangeIteration id true false inbound writeRes readRes = .panic) :=
  ⟨fun _ _ _ _ _ => rfl, fun _ _ _ _ => rfl, fun _ _ _ => rfl, fun _ _ _ _ => rfl⟩

end Azalea
